import Mathlib

/-!
Verification development for the CarInfo scraper
(`src/car_spider_playwright.py`).

The Python source is shallowly embedded below.  Python `dict`s (insertion
ordered, unique keys, in-place update on re-assignment) are modelled as
association lists with an update-or-append `dinsert`; page content that the
browser would supply (column-header texts, attribute rows) is a `PageModel`
value; the retry loop of `CarSpider.run` is a fuel-bounded recursion over an
abstract per-attempt behaviour, producing the unit result together with a
trace of the observable events (fetch, backoff sleep, file write, browser
acquire/release).
-/

namespace CarInfo

/-! ## Python dict model -/

/-- A `Dict α β` is a Python `dict`: an insertion-ordered association list
with pairwise-distinct keys. -/
abbrev Dict (α β : Type) := List (α × β)

/-- Lookup, `d[k]` / `d.get(k)`: first (only) binding of the key. -/
def dget {α β : Type} [DecidableEq α] : Dict α β → α → Option β
  | [], _ => none
  | (k, v) :: rest, key => if key = k then some v else dget rest key

/-- Assignment `d[k] = v`: update the existing binding in place (keeping its
position, as a Python dict does) or append a fresh binding at the end. -/
def dinsert {α β : Type} [DecidableEq α] : Dict α β → α → β → Dict α β
  | [], key, v => [(key, v)]
  | (k, w) :: rest, key, v =>
      if key = k then (key, v) :: rest else (k, w) :: dinsert rest key v

/-! ## Data model of the extractor -/

/-- Python `str.strip()`: remove leading and trailing whitespace.  Defined
structurally on the character list so that it evaluates inside the kernel. -/
def pyStrip (s : String) : String :=
  ⟨((s.data.dropWhile Char.isWhitespace).reverse.dropWhile Char.isWhitespace).reverse⟩

/-- Inner mapping of one column: attribute label → attribute value
(`all_car_data[car_name]`). -/
abbrev AttrMap := Dict String String

/-- `all_car_data`: column identifier → attribute map. -/
abbrev CarData := Dict String AttrMap

/-- Two-level lookup `all_car_data[col][label]`. -/
def dget2 (d : CarData) (col lbl : String) : Option String :=
  match dget d col with
  | none => none
  | some attrs => dget attrs lbl

/-- The placeholder value set of line 181/198:
`['——', '/', '空', 'N/A']`. -/
def placeholderValues : List String := ["——", "/", "空", "N/A"]

/-- One attribute row (`tr.data-tr`): the text of the label cell when a
label cell was found (`row.query_selector` returning `None` makes the row
skipped), and the texts of the value cells, in page order. -/
structure Row where
  nameCell : Option String
  valueCells : List String

/-- A fetched page as the extractor sees it: the texts of the column-header
elements (`none` marks an element whose `text_content` raised, line 142),
and the attribute rows. -/
structure PageModel where
  carStyles : List (Option String)
  paramRows : List Row

/-! ## Column names (lines 131-145) -/

/-- The `car_names` loop: each header text is stripped; an empty stripped
label, or a header whose text extraction raised, is replaced by
`车型_<idx>` with `idx` the 1-based position.  No deduplication is
performed. -/
def buildCarNames : List (Option String) → Nat → List String
  | [], _ => []
  | some t :: rest, idx =>
      let s := pyStrip t
      (if s = "" then "车型_" ++ toString idx else s) :: buildCarNames rest (idx + 1)
  | none :: rest, idx => ("车型_" ++ toString idx) :: buildCarNames rest (idx + 1)

/-- The `all_car_data[car_name] = {}` initialisation interleaved with the
name loop: one (re-)binding to the empty map per name. -/
def initCarData (names : List String) : CarData :=
  names.foldl (fun d n => dinsert d n ([] : AttrMap)) []

/-! ## Storing one (label, value) pair (lines 176-185 / 193-200) -/

/-- The guarded store of one pair: strip the value text and execute
`all_car_data[car_name][param_name] = param_value` only when the label is
non-empty, the stripped value is non-empty and the stripped value is not a
placeholder; otherwise the pair is discarded. -/
def storePair (paramName carName rawValue : String) (d : CarData) : CarData :=
  let paramValue := pyStrip rawValue
  if paramName ≠ "" ∧ paramValue ≠ "" ∧ paramValue ∉ placeholderValues then
    dinsert d carName (dinsert ((dget d carName).getD []) paramName paramValue)
  else d

/-- Equal-count branch (lines 174-185): iterate over
`zip(car_names, value_cells)` storing each pair. -/
def storeZip (paramName : String) : List (String × String) → CarData → CarData
  | [], d => d
  | (c, v) :: rest, d => storeZip paramName rest (storePair paramName c v d)

/-- Mismatched-count branch (lines 190-200): enumerate the value cells and
attempt a pair only while the index is below the column count.  The second
component counts the attempted pairs. -/
def storeTrunc (paramName : String) (carNames : List String) :
    List String → Nat → CarData → CarData × Nat
  | [], _, d => (d, 0)
  | v :: rest, i, d =>
      if i < carNames.length then
        let r := storeTrunc paramName carNames rest (i + 1)
          (storePair paramName (carNames.getD i "") v d)
        (r.1, r.2 + 1)
      else storeTrunc paramName carNames rest (i + 1) d

/-- Processing of one row (lines 159-205).  A missing label cell skips the
row.  Otherwise the label is stripped and the branch on
`len(value_cells) == len(car_names)` selects lock-step zip or truncated
enumeration; the second component is the list of mismatch diagnostics
emitted for the row (the warning print of line 189 carries the row label
and fires in the mismatch branch regardless of validity). -/
def processRow (carNames : List String) (d : CarData) (row : Row) :
    CarData × List String :=
  match row.nameCell with
  | none => (d, [])
  | some raw =>
      let paramName := pyStrip raw
      if row.valueCells.length = carNames.length then
        (storeZip paramName (carNames.zip row.valueCells) d, [])
      else
        ((storeTrunc paramName carNames row.valueCells 0 d).1, [paramName])

/-! ## extract_car_info (lines 110-216) -/

/-- The full extractor: fail when no column headers were found, build the
column names and the empty per-column maps, fail when no attribute rows
were found, fold every row through `processRow`, and finally return `None`
exactly when `all_car_data` is the empty dict (line 207).  Also returns the
accumulated mismatch diagnostics. -/
def extractFull (p : PageModel) : Option CarData × List String :=
  if p.carStyles.isEmpty then (none, [])
  else
    let carNames := buildCarNames p.carStyles 1
    let init := initCarData carNames
    if p.paramRows.isEmpty then (none, [])
    else
      let res := p.paramRows.foldl
        (fun acc row =>
          let r := processRow carNames acc.1 row
          (r.1, acc.2 ++ r.2))
        (init, ([] : List String))
      if res.1.isEmpty then (none, res.2) else (some res.1, res.2)

/-- `extract_car_info`: the returned value of the extractor. -/
def extract_car_info (p : PageModel) : Option CarData :=
  (extractFull p).1

/-! ## Retry orchestrator model (CarSpider.run, lines 233-283)

One loop iteration either breaks (successful extraction) or increments
`retry_count`, so `retry_count` is exactly the attempt index.  An attempt's
interaction with the page is abstracted into an `AttemptOutcome`; the
orchestrator's observable actions are recorded as a trace of `Event`s. -/

/-- What one attempt of the loop body observes:
`page.goto` raising (caught by the `except` of line 268),
`wait_for_page_load` returning `False` (line 251), or
`extract_car_info` completing with its `Optional` result. -/
inductive AttemptOutcome where
  | gotoFail
  | loadFail
  | extractDone (r : Option CarData)
deriving DecidableEq

/-- Behaviour of one attempt: its outcome, and whether the `save_data` file
write would succeed if reached. -/
structure AttemptSpec where
  outcome : AttemptOutcome
  saveOk : Bool

/-- Observable events of a unit run. -/
inductive Event where
  | acquireBrowser
  | fetchPage
  | sleepBackoff
  | writeFile
  | saveFailLogged
  | releaseBrowser
deriving DecidableEq

/-- Python truthiness of `car_info` at line 259: not `None` and a non-empty
dict. -/
def dataTruthy : Option CarData → Bool
  | some d => !d.isEmpty
  | none => false

/-- `max_retries = 3` (line 240, a literal in the source). -/
def max_retries : Nat := 3

/-- The `while retry_count < max_retries` loop, structurally recursive on the
number of remaining attempts (`max_retries - retry_count`); the first
argument of the recursion is the current `retry_count` (used to index the
attempt behaviour).  On `goto` failure and on falsy extraction the code
sleeps a `random.uniform(5, 10)` backoff (modelled as the `sleepBackoff`
event); on `wait_for_page_load` failure it `continue`s with no sleep.  On
truthy extraction `save_data` is called: on write success it returns the
data, on write failure it catches, logs and returns `None`, which the loop
`break`s with as `result_data`. -/
def runLoop (beh : Nat → AttemptSpec) : Nat → Nat → Option CarData × List Event
  | _, 0 => (none, [])
  | retryCount, remaining + 1 =>
      match (beh retryCount).outcome with
      | AttemptOutcome.gotoFail =>
          let r := runLoop beh (retryCount + 1) remaining
          (r.1, Event.fetchPage :: Event.sleepBackoff :: r.2)
      | AttemptOutcome.loadFail =>
          let r := runLoop beh (retryCount + 1) remaining
          (r.1, Event.fetchPage :: r.2)
      | AttemptOutcome.extractDone res =>
          if dataTruthy res then
            if (beh retryCount).saveOk then
              (res, [Event.fetchPage, Event.writeFile])
            else
              (none, [Event.fetchPage, Event.saveFailLogged])
          else
            let r := runLoop beh (retryCount + 1) remaining
            (r.1, Event.fetchPage :: Event.sleepBackoff :: r.2)

/-- `CarSpider.run`: acquire the browser/context/page, run the retry loop
from `retry_count = 0`, and release the browser in the `finally`. -/
def run (beh : Nat → AttemptSpec) : Option CarData × List Event :=
  let r := runLoop beh 0 max_retries
  (r.1, Event.acquireBrowser :: (r.2 ++ [Event.releaseBrowser]))

/-! ## Batch processing (process_car / process_all_cars, lines 285-345) -/

/-- One input record of `car_list.json`: optional `name`, `subname`, `url`
entries. -/
structure CarRecord where
  name : Option String
  subname : Option String
  url : Option String

/-- The guard of line 291: `url = car_info.get('url'); if not url` — absent
or empty url is rejected. -/
def hasUrl (rec : CarRecord) : Bool :=
  match rec.url with
  | none => false
  | some u => !(u == "")

/-- `car_info.get('name', '未知品牌')`. -/
def brandOf (rec : CarRecord) : String := rec.name.getD "未知品牌"

/-- `car_info.get('subname', '未知车型')`. -/
def modelOf (rec : CarRecord) : String := rec.subname.getD "未知车型"

/-- `process_car`: reject a record without a usable url before creating any
spider; otherwise create the spider and run it. -/
def process_car (rec : CarRecord) (beh : Nat → AttemptSpec) :
    Option CarData × List Event :=
  if hasUrl rec then run beh else (none, [])

/-- `all_cars_data`: brand → model → ExtractionResult. -/
abbrev Aggregate := Dict String (Dict String CarData)

instance : DecidableEq AttrMap := inferInstance

instance : DecidableEq CarData := inferInstance

instance : DecidableEq (Dict String CarData) := inferInstance

instance : DecidableEq Aggregate := inferInstance

/-- Lines 327-336: `if car_data:` (truthy, i.e. not `None` and non-empty)
insert under the brand, creating the brand-level dict lazily. -/
def addToAggregate (agg : Aggregate) (rec : CarRecord) (r : Option CarData) :
    Aggregate :=
  match r with
  | some d =>
      if d.isEmpty then agg
      else dinsert agg (brandOf rec)
        (dinsert ((dget agg (brandOf rec)).getD []) (modelOf rec) d)
  | none => agg

/-- The `for car_info in car_list` loop: process each unit in order,
aggregating truthy results and concatenating the event traces. -/
def pacGo : List (CarRecord × (Nat → AttemptSpec)) → Aggregate →
    Aggregate × List Event
  | [], agg => (agg, [])
  | rb :: rest, agg =>
      let r := process_car rb.1 rb.2
      let next := pacGo rest (addToAggregate agg rb.1 r.1)
      (next.1, r.2 ++ next.2)

/-- `process_all_cars` restricted to its core loop: start from the empty
aggregate. -/
def process_all_cars (cars : List (CarRecord × (Nat → AttemptSpec))) :
    Aggregate × List Event :=
  pacGo cars []

/-! ## Concrete inputs used by witnesses and counterexamples -/

/-- Concrete page: one equal-count row and one mismatched-count row. -/
def w1Page : PageModel :=
  ⟨[some "款式一", some " 款式二 "],
   [⟨some " 长度(mm) ", [" 4500 ", "——"]⟩, ⟨some "宽度(mm)", ["1800"]⟩]⟩

/-- Column-header texts with two identical non-empty labels. -/
def w2Styles : List (Option String) := [some "经典版", some "经典版"]

/-- Three distinct column names for the alignment claims. -/
def w3Names : List String := ["车型甲", "车型乙", "车型丙"]

/-- The per-column empty maps built from `w3Names`. -/
def w3Init : CarData := initCarData w3Names

/-- The exact row of the C3 spec sentence: label 长度(mm), values
`["4500", "4500", "——"]`. -/
def w3Row : Row := ⟨some "长度(mm)", ["4500", "4500", "——"]⟩

/-- A page whose columns are found and whose single row is entirely
placeholder-valued, so zero pairs survive sanitization. -/
def w5Page : PageModel := ⟨[some "款式一"], [⟨some "长度(mm)", ["——"]⟩]⟩

/-- Behaviour: `page.goto` raises on every attempt. -/
def wBehGotoFail : Nat → AttemptSpec := fun _ => ⟨AttemptOutcome.gotoFail, false⟩

/-- Behaviour: readiness detection fails on every attempt. -/
def wBehLoadFail : Nat → AttemptSpec := fun _ => ⟨AttemptOutcome.loadFail, false⟩

/-- Behaviour: extraction of `w1Page` succeeds first try and the file write
succeeds. -/
def wBehOk : Nat → AttemptSpec :=
  fun _ => ⟨AttemptOutcome.extractDone (extract_car_info w1Page), true⟩

/-- Behaviour: extraction of `w1Page` succeeds first try but the file write
fails. -/
def wBehSaveFail : Nat → AttemptSpec :=
  fun _ => ⟨AttemptOutcome.extractDone (extract_car_info w1Page), false⟩

/-- Behaviour: extraction of `w5Page` (columns found, zero surviving pairs)
with a succeeding file write. -/
def wBehEmptyCols : Nat → AttemptSpec :=
  fun _ => ⟨AttemptOutcome.extractDone (extract_car_info w5Page), true⟩

/-- Unit records for the batch claims. -/
def wRecA : CarRecord := ⟨some "品牌A", some "车型A", some "http://a"⟩

/-- Second unit record with a distinct brand. -/
def wRecB : CarRecord := ⟨some "品牌B", some "车型B", some "http://b"⟩

/-- Unit record lacking the url entry. -/
def wRecNoUrl : CarRecord := ⟨some "品牌C", some "车型C", none⟩

/-- Number of occurrences of an event in a trace. -/
def countEvent (e : Event) : List Event → Nat
  | [] => 0
  | x :: rest => (if x = e then 1 else 0) + countEvent e rest

/-! ## The sanitization predicate -/

/-- A well-formed stored pair: non-empty label, non-empty value, value not
a placeholder. -/
def GoodPair (lbl v : String) : Prop :=
  lbl ≠ "" ∧ v ≠ "" ∧ v ∉ placeholderValues

/-- Every pair stored anywhere in `all_car_data` is well formed. -/
def GoodData (d : CarData) : Prop :=
  ∀ ca ∈ d, ∀ q ∈ ca.2, GoodPair q.1 q.2

/-! ## Dict lemmas -/

theorem dget_dinsert_self {α β : Type} [DecidableEq α] (d : Dict α β) (k : α) (v : β) :
    dget (dinsert d k v) k = some v := by
  induction d with
  | nil => simp [dget, dinsert]
  | cons hd tl ih =>
      obtain ⟨k1, v1⟩ := hd
      by_cases h : k = k1 <;> simp [dget, dinsert, h, ih]

theorem dget_dinsert_ne {α β : Type} [DecidableEq α] (d : Dict α β) (k k2 : α) (v : β)
    (h : k2 ≠ k) : dget (dinsert d k v) k2 = dget d k2 := by
  induction d with
  | nil => simp [dget, dinsert, h]
  | cons hd tl ih =>
      obtain ⟨k1, v1⟩ := hd
      by_cases h1 : k = k1
      · subst h1; simp [dget, dinsert, h]
      · by_cases h2 : k2 = k1 <;> simp [dget, dinsert, h1, h2, ih]

theorem mem_dinsert {α β : Type} [DecidableEq α] (d : Dict α β) (k : α) (v : β)
    (x : α × β) (hx : x ∈ dinsert d k v) : x ∈ d ∨ x = (k, v) := by
  induction d with
  | nil => simp [dinsert] at hx; simp [hx]
  | cons hd tl ih =>
      obtain ⟨k1, v1⟩ := hd
      by_cases h1 : k = k1
      · subst h1
        simp [dinsert] at hx
        rcases hx with hx | hx
        · right; simp [hx]
        · left; simp [hx]
      · simp [dinsert, h1] at hx
        rcases hx with hx | hx
        · left; simp [hx]
        · rcases ih hx with h2 | h2
          · left; simp [h2]
          · right; exact h2

theorem dget_mem {α β : Type} [DecidableEq α] (d : Dict α β) (k : α) (v : β)
    (h : dget d k = some v) : (k, v) ∈ d := by
  induction d with
  | nil => simp [dget] at h
  | cons hd tl ih =>
      obtain ⟨k1, v1⟩ := hd
      by_cases h1 : k = k1
      · subst h1
        simp [dget] at h
        simp [h]
      · simp [dget, h1] at h
        simp [ih h]

/-! ## The sanitization invariant (claim C1 support) -/

theorem goodData_storePair (pn c rv : String) (d : CarData) (hd : GoodData d) :
    GoodData (storePair pn c rv d) := by
  unfold storePair
  show GoodData
    (if pn ≠ "" ∧ pyStrip rv ≠ "" ∧ pyStrip rv ∉ placeholderValues then
      dinsert d c (dinsert ((dget d c).getD []) pn (pyStrip rv))
    else d)
  split
  case isTrue h =>
    intro ca hca q hq
    rcases mem_dinsert _ _ _ _ hca with h1 | h1
    · exact hd ca h1 q hq
    · subst h1
      rcases mem_dinsert _ _ _ _ hq with h2 | h2
      · cases hg : dget d c with
        | none => rw [hg] at h2; simp at h2
        | some inner =>
            rw [hg] at h2
            exact hd (c, inner) (dget_mem d c inner hg) q h2
      · subst h2; exact ⟨h.1, h.2.1, h.2.2⟩
  case isFalse _ => exact hd

theorem goodData_storeZip (pn : String) (l : List (String × String)) :
    ∀ d : CarData, GoodData d → GoodData (storeZip pn l d) := by
  induction l with
  | nil => intro d hd; exact hd
  | cons x tl ih =>
      intro d hd
      obtain ⟨c, v⟩ := x
      exact ih _ (goodData_storePair pn c v d hd)

theorem goodData_storeTrunc (pn : String) (names : List String) (cells : List String) :
    ∀ (i : Nat) (d : CarData), GoodData d →
      GoodData (storeTrunc pn names cells i d).1 := by
  induction cells with
  | nil => intro i d hd; exact hd
  | cons v tl ih =>
      intro i d hd
      unfold storeTrunc
      split
      · exact ih (i + 1) _ (goodData_storePair pn (names.getD i "") v d hd)
      · exact ih (i + 1) d hd

theorem goodData_processRow (names : List String) (d : CarData) (row : Row)
    (hd : GoodData d) : GoodData (processRow names d row).1 := by
  unfold processRow
  cases row.nameCell with
  | none => exact hd
  | some raw =>
      by_cases h : row.valueCells.length = names.length
      · simpa [h] using goodData_storeZip (pyStrip raw) (names.zip row.valueCells) d hd
      · simpa [h] using goodData_storeTrunc (pyStrip raw) names row.valueCells 0 d hd

theorem goodData_initCarData (names : List String) : GoodData (initCarData names) := by
  unfold initCarData
  have main : ∀ (l : List String) (d : CarData), GoodData d →
      GoodData (l.foldl (fun d n => dinsert d n ([] : AttrMap)) d) := by
    intro l
    induction l with
    | nil => intro d hd; exact hd
    | cons n tl ih =>
        intro d hd
        refine ih _ ?_
        intro ca hca q hq
        rcases mem_dinsert _ _ _ _ hca with h1 | h1
        · exact hd ca h1 q hq
        · subst h1; simp at hq
  exact main names [] (by intro ca hca; simp at hca)

theorem goodData_rowFold (names : List String) (rows : List Row) :
    ∀ acc : CarData × List String, GoodData acc.1 →
      GoodData ((rows.foldl
        (fun acc row =>
          let r := processRow names acc.1 row
          (r.1, acc.2 ++ r.2)) acc).1) := by
  induction rows with
  | nil => intro acc h; exact h
  | cons row tl ih =>
      intro acc h
      exact ih _ (goodData_processRow names acc.1 row h)

/-- Claim C1: every value stored in an `ExtractionResult` produced by
`extract_car_info` is a non-empty string outside the placeholder set
`{"——", "/", "空", "N/A"}`, and every stored label is non-empty; the fold
covers both the equal-count and the mismatched-count alignment branches. -/
theorem extract_result_sanitized (p : PageModel) (data : CarData)
    (col : String) (attrs : AttrMap) (lbl v : String)
    (h1 : extract_car_info p = some data)
    (h2 : (col, attrs) ∈ data) (h3 : (lbl, v) ∈ attrs) :
    lbl ≠ "" ∧ v ≠ "" ∧ v ∉ placeholderValues := by
  unfold extract_car_info extractFull at h1
  by_cases hs : p.carStyles.isEmpty
  · simp [hs] at h1
  · by_cases hr : p.paramRows.isEmpty
    · simp [hs, hr] at h1
    · simp only [hs, hr, if_false, Bool.false_eq_true] at h1
      split at h1
      · simp at h1
      · simp only [Option.some.injEq] at h1
        subst h1
        exact goodData_rowFold (buildCarNames p.carStyles 1) p.paramRows
          (initCarData (buildCarNames p.carStyles 1), [])
          (goodData_initCarData (buildCarNames p.carStyles 1)) (col, attrs) h2 (lbl, v) h3

/-- Witness for C1 at `w1Page`: the pair stored for column 款式一 / label
长度(mm) satisfies the sanitization invariant. -/
theorem extract_result_sanitized_witness :
    "长度(mm)" ≠ "" ∧ "4500" ≠ "" ∧ "4500" ∉ placeholderValues :=
  extract_result_sanitized w1Page
    [("款式一", [("长度(mm)", "4500"), ("宽度(mm)", "1800")]), ("款式二", [])]
    "款式一" [("长度(mm)", "4500"), ("宽度(mm)", "1800")] "长度(mm)" "4500"
    (by decide) (by decide) (by decide)

/-! ## Column-name claims (C2) -/

theorem synthName_ne_empty (s : String) : "车型_" ++ s ≠ "" := by
  intro h
  have h2 : ("车型_" ++ s).data.length = ("" : String).data.length := by rw [h]
  rw [String.data_append, List.length_append] at h2
  have h3 : ("车型_" : String).data.length = 3 := rfl
  have h4 : ("" : String).data.length = 0 := rfl
  omega

/-- Claim C2 counterexample: a page whose two column headers both carry the
non-empty label 经典版 yields the ColumnSet `["经典版", "经典版"]`, which
is not pairwise unique — the code replaces only empty labels, never
position-colliding ones. -/
theorem carNames_duplicate_counterexample :
    buildCarNames w2Styles 1 = ["经典版", "经典版"] ∧
    ¬ (buildCarNames w2Styles 1).Nodup := by
  constructor
  · decide
  · decide

/-- Claim C2 (amended): every identifier in the ColumnSet built by
`extract_car_info` is non-empty — an empty (or failed) raw label is replaced
by the synthesized placeholder `车型_<ordinal>` — but pairwise uniqueness is
not enforced: duplicated raw labels are kept verbatim. -/
theorem carNames_nonempty (styles : List (Option String)) (idx : Nat)
    (name : String) (h : name ∈ buildCarNames styles idx) : name ≠ "" := by
  induction styles generalizing idx with
  | nil => simp [buildCarNames] at h
  | cons st tl ih =>
      cases st with
      | none =>
          simp only [buildCarNames, List.mem_cons] at h
          rcases h with h | h
          · subst h; exact synthName_ne_empty _
          · exact ih _ h
      | some t =>
          simp only [buildCarNames, List.mem_cons] at h
          rcases h with h | h
          · subst h
            split
            · exact synthName_ne_empty _
            · assumption
          · exact ih _ h

/-- Witness for the amended C2: the empty header text at position 1 is
replaced by 车型_1, which is non-empty. -/
theorem carNames_nonempty_witness : "车型_1" ≠ "" :=
  carNames_nonempty [some ""] 1 "车型_1" (by decide)

/-! ## Alignment lemmas (claims C3, C4) -/

theorem getD_mem_of_lt {l : List String} {j : Nat} (hj : j < l.length) :
    l.getD j "" ∈ l := by
  rw [List.getD_eq_getElem?_getD, List.getElem?_eq_getElem hj]
  simp [List.getElem_mem hj]

theorem dget_storePair_ne (pn c rv k : String) (d : CarData) (h : k ≠ c) :
    dget (storePair pn c rv d) k = dget d k := by
  unfold storePair
  show dget
    (if pn ≠ "" ∧ pyStrip rv ≠ "" ∧ pyStrip rv ∉ placeholderValues then
      dinsert d c (dinsert ((dget d c).getD []) pn (pyStrip rv))
    else d) k = dget d k
  split
  · exact dget_dinsert_ne d c k _ h
  · rfl

theorem dget2_storePair_ne (pn c rv k lbl : String) (d : CarData) (h : k ≠ c) :
    dget2 (storePair pn c rv d) k lbl = dget2 d k lbl := by
  unfold dget2
  rw [dget_storePair_ne pn c rv k d h]

theorem dget_storeZip_notMem (pn : String) (l : List (String × String)) :
    ∀ (d : CarData) (k : String), (∀ x ∈ l, k ≠ x.1) →
      dget (storeZip pn l d) k = dget d k := by
  induction l with
  | nil => intro d k _; rfl
  | cons x tl ih =>
      intro d k hk
      obtain ⟨c, v⟩ := x
      unfold storeZip
      rw [ih _ k (fun y hy => hk y (List.mem_cons_of_mem _ hy))]
      exact dget_storePair_ne pn c v k d (hk (c, v) (List.mem_cons_self _ _))

theorem dget2_storeZip_notMem (pn : String) (l : List (String × String))
    (d : CarData) (k lbl : String) (hk : ∀ x ∈ l, k ≠ x.1) :
    dget2 (storeZip pn l d) k lbl = dget2 d k lbl := by
  unfold dget2
  rw [dget_storeZip_notMem pn l d k hk]

theorem dget2_storePair_self (pn c rv : String) (d : CarData) (hp : pn ≠ "") :
    dget2 (storePair pn c rv d) c pn =
      (if pyStrip rv ≠ "" ∧ pyStrip rv ∉ placeholderValues then some (pyStrip rv)
       else dget2 d c pn) := by
  unfold storePair
  show dget2
    (if pn ≠ "" ∧ pyStrip rv ≠ "" ∧ pyStrip rv ∉ placeholderValues then
      dinsert d c (dinsert ((dget d c).getD []) pn (pyStrip rv))
    else d) c pn = _
  by_cases hv : pyStrip rv ≠ "" ∧ pyStrip rv ∉ placeholderValues
  · rw [if_pos ⟨hp, hv.1, hv.2⟩, if_pos hv]
    unfold dget2
    rw [dget_dinsert_self]
    show dget (dinsert ((dget d c).getD []) pn (pyStrip rv)) pn = some (pyStrip rv)
    exact dget_dinsert_self _ _ _
  · rw [if_neg (by tauto), if_neg hv]

theorem dget2_storeZip_lookup (pn : String) :
    ∀ (names cells : List String) (d : CarData) (i : Nat),
      names.Nodup → cells.length = names.length → i < names.length → pn ≠ "" →
      dget2 (storeZip pn (names.zip cells) d) (names.getD i "") pn =
        (if pyStrip (cells.getD i "") ≠ "" ∧ pyStrip (cells.getD i "") ∉ placeholderValues
         then some (pyStrip (cells.getD i ""))
         else dget2 d (names.getD i "") pn) := by
  intro names
  induction names with
  | nil => intro cells d i _ _ hi _; simp at hi
  | cons n tl ih =>
      intro cells d i hn hlen hi hp
      cases cells with
      | nil => simp at hlen
      | cons c cs =>
          have hlen2 : cs.length = tl.length := by simpa using hlen
          have hnotin : n ∉ tl := (List.nodup_cons.mp hn).1
          rw [List.zip_cons_cons]
          cases i with
          | zero =>
              simp only [List.getD_cons_zero]
              unfold storeZip
              rw [dget2_storeZip_notMem pn (tl.zip cs) _ n pn
                (fun x hx he => hnotin (by rw [he]; exact (List.of_mem_zip hx).1))]
              exact dget2_storePair_self pn n c d hp
          | succ j =>
              have hj : j < tl.length := by simpa using hi
              simp only [List.getD_cons_succ]
              unfold storeZip
              rw [ih cs (storePair pn n c d) j (List.nodup_cons.mp hn).2 hlen2 hj hp]
              have hne : tl.getD j "" ≠ n :=
                fun he => hnotin (he ▸ getD_mem_of_lt hj)
              rw [dget2_storePair_ne pn n c (tl.getD j "") pn d hne]

/-- Claim C3: in the equal-count branch alignment zips positionally — the
processed row emits no mismatch diagnostic, and for every index `i < N` the
entry of column `i` at the row label is the stripped value of cell `i` when
that value survives sanitization, and is untouched otherwise. -/
theorem alignment_equal_count (carNames : List String) (raw : String)
    (cells : List String) (d : CarData) (i : Nat)
    (hn : carNames.Nodup) (hlen : cells.length = carNames.length)
    (hi : i < carNames.length) (hp : pyStrip raw ≠ "") :
    (processRow carNames d ⟨some raw, cells⟩).2 = [] ∧
    dget2 (processRow carNames d ⟨some raw, cells⟩).1 (carNames.getD i "") (pyStrip raw) =
      (if pyStrip (cells.getD i "") ≠ "" ∧ pyStrip (cells.getD i "") ∉ placeholderValues
       then some (pyStrip (cells.getD i ""))
       else dget2 d (carNames.getD i "") (pyStrip raw)) := by
  have hred : processRow carNames d ⟨some raw, cells⟩ =
      (storeZip (pyStrip raw) (carNames.zip cells) d, []) := by
    unfold processRow
    simp [hlen]
  rw [hred]
  exact ⟨rfl, dget2_storeZip_lookup (pyStrip raw) carNames cells d i hn hlen hi hp⟩

/-- Witness for C3 at the spec's exact case: `N = 3`, label 长度(mm), row
values `["4500", "4500", "——"]` — columns 1 and 2 receive the entry
长度(mm) ↦ 4500, column 3 receives no entry, and no diagnostic is
emitted. -/
theorem alignment_equal_count_witness :
    dget2 (processRow w3Names w3Init w3Row).1 "车型甲" "长度(mm)" = some "4500" ∧
    dget2 (processRow w3Names w3Init w3Row).1 "车型乙" "长度(mm)" = some "4500" ∧
    dget2 (processRow w3Names w3Init w3Row).1 "车型丙" "长度(mm)" = none ∧
    (processRow w3Names w3Init w3Row).2 = [] := by
  have e : pyStrip "长度(mm)" = "长度(mm)" := by decide
  have h0 := alignment_equal_count w3Names "长度(mm)" ["4500", "4500", "——"] w3Init 0
    (by decide) (by decide) (by decide) (by decide)
  have h1 := alignment_equal_count w3Names "长度(mm)" ["4500", "4500", "——"] w3Init 1
    (by decide) (by decide) (by decide) (by decide)
  have h2 := alignment_equal_count w3Names "长度(mm)" ["4500", "4500", "——"] w3Init 2
    (by decide) (by decide) (by decide) (by decide)
  have g0 := h0.2
  have g1 := h1.2
  have g2 := h2.2
  rw [e] at g0 g1 g2
  exact ⟨g0.trans (by decide), g1.trans (by decide), g2.trans (by decide), h0.1⟩

theorem storeTrunc_count (pn : String) (names : List String) :
    ∀ (cells : List String) (i : Nat) (d : CarData),
      (storeTrunc pn names cells i d).2 = min cells.length (names.length - i) := by
  intro cells
  induction cells with
  | nil => intro i d; simp [storeTrunc]
  | cons v tl ih =>
      intro i d
      unfold storeTrunc
      split
      case isTrue h =>
        show (storeTrunc pn names tl (i + 1) _).2 + 1 = _
        rw [ih]
        simp only [List.length_cons]
        omega
      case isFalse h =>
        rw [ih]
        simp only [List.length_cons]
        omega

theorem dget_storeTrunc_out (pn : String) (names : List String) :
    ∀ (cells : List String) (i : Nat) (d : CarData) (k : String),
      (∀ j, i ≤ j → j < names.length → j < i + cells.length → names.getD j "" ≠ k) →
      dget (storeTrunc pn names cells i d).1 k = dget d k := by
  intro cells
  induction cells with
  | nil => intro i d k _; rfl
  | cons v tl ih =>
      intro i d k hk
      unfold storeTrunc
      split
      case isTrue h =>
        show dget (storeTrunc pn names tl (i + 1) _).1 k = dget d k
        rw [ih (i + 1) _ k (fun j h1 h2 h3 => hk j (by omega) h2 (by simp; omega))]
        exact dget_storePair_ne pn (names.getD i "") v k d
          (fun he => hk i (by omega) h (by simp) he.symm)
      case isFalse h =>
        exact ih (i + 1) d k (fun j h1 h2 h3 => hk j (by omega) h2 (by simp; omega))

/-- Claim C4: in the mismatched-count branch the row is processed in the
degraded mode, not failed: the processed row is the truncated enumeration
together with exactly one mismatch diagnostic carrying the row label, the
number of attempted (label, value) pairs is exactly
`min (value-cell count) N`, and any column key outside the first
`min (count, N)` column names is left untouched. -/
theorem alignment_mismatch (carNames : List String) (raw : String)
    (cells : List String) (d : CarData) (k : String)
    (hlen : cells.length ≠ carNames.length)
    (hk : ∀ j, j < min cells.length carNames.length → carNames.getD j "" ≠ k) :
    processRow carNames d ⟨some raw, cells⟩ =
      ((storeTrunc (pyStrip raw) carNames cells 0 d).1, [pyStrip raw]) ∧
    (storeTrunc (pyStrip raw) carNames cells 0 d).2 =
      min cells.length carNames.length ∧
    dget (storeTrunc (pyStrip raw) carNames cells 0 d).1 k = dget d k := by
  refine ⟨?_, ?_, ?_⟩
  · unfold processRow
    simp [hlen]
  · rw [storeTrunc_count]
    omega
  · exact dget_storeTrunc_out (pyStrip raw) carNames cells 0 d k
      (fun j h1 h2 h3 => hk j (by omega))

/-- Witness for C4 at the spec's mismatch case: `N = 3` columns and 2 value
cells — exactly 2 pairs are attempted, one diagnostic carrying the row label
宽度(mm) is recorded, and column 3 (车型丙) is untouched. -/
theorem alignment_mismatch_witness :
    (storeTrunc "宽度(mm)" w3Names ["1800", "1850"] 0 w3Init).2 = 2 ∧
    (processRow w3Names w3Init ⟨some "宽度(mm)", ["1800", "1850"]⟩).2 = ["宽度(mm)"] ∧
    dget (storeTrunc "宽度(mm)" w3Names ["1800", "1850"] 0 w3Init).1 "车型丙" =
      dget w3Init "车型丙" := by
  have e : pyStrip "宽度(mm)" = "宽度(mm)" := by decide
  have h := alignment_mismatch w3Names "宽度(mm)" ["1800", "1850"] w3Init "车型丙"
    (by decide) (by decide)
  rw [e] at h
  refine ⟨h.2.1.trans (by decide), ?_, h.2.2⟩
  rw [h.1]

/-! ## Orchestrator lemmas and claims (C5-C10) -/

/-- Claim C5 (code-bug evidence): on a page where columns and rows are found
but zero pairs survive sanitization, `extract_car_info` returns the dict of
pre-created empty per-column maps rather than `None` — the guard
`if not all_car_data` of line 207 can never fire once a column exists,
because line 140 pre-creates `all_car_data[car_name] = {}`; the
orchestrator's truthiness test of line 259 then treats this zero-entry
result as a success and does not retry. -/
theorem extract_zero_pairs_not_failed :
    extract_car_info w5Page = some [("款式一", [])] ∧
    dataTruthy (extract_car_info w5Page) = true ∧
    (run wBehEmptyCols).1 = some [("款式一", [])] := by decide

theorem countEvent_append (e : Event) (l1 l2 : List Event) :
    countEvent e (l1 ++ l2) = countEvent e l1 + countEvent e l2 := by
  induction l1 with
  | nil => simp [countEvent]
  | cons x tl ih => simp [countEvent, ih]; omega

theorem runLoop_step (beh : Nat → AttemptSpec) (rc n : Nat) :
    runLoop beh rc (n + 1) =
      (match (beh rc).outcome with
      | AttemptOutcome.gotoFail =>
          ((runLoop beh (rc + 1) n).1,
            Event.fetchPage :: Event.sleepBackoff :: (runLoop beh (rc + 1) n).2)
      | AttemptOutcome.loadFail =>
          ((runLoop beh (rc + 1) n).1,
            Event.fetchPage :: (runLoop beh (rc + 1) n).2)
      | AttemptOutcome.extractDone res =>
          if dataTruthy res then
            if (beh rc).saveOk then (res, [Event.fetchPage, Event.writeFile])
            else (none, [Event.fetchPage, Event.saveFailLogged])
          else
            ((runLoop beh (rc + 1) n).1,
              Event.fetchPage :: Event.sleepBackoff :: (runLoop beh (rc + 1) n).2)) := rfl

theorem runLoop_allFail_aux (beh : Nat → AttemptSpec)
    (hfail : ∀ i, (beh i).outcome = AttemptOutcome.gotoFail) :
    ∀ (remaining rc : Nat),
      (runLoop beh rc remaining).1 = none ∧
      countEvent Event.fetchPage (runLoop beh rc remaining).2 = remaining := by
  intro remaining
  induction remaining with
  | zero => intro rc; exact ⟨rfl, rfl⟩
  | succ n ih =>
      intro rc
      rw [runLoop_step, hfail rc]
      exact ⟨(ih (rc + 1)).1, by simp [countEvent, (ih (rc + 1)).2, Nat.add_comm]⟩

/-- Claim C6: a unit whose fetch raises on every attempt is attempted
exactly `max_retries = 3` times — the run trace holds exactly 3 fetch
events, never more, never fewer — and the run result is none. -/
theorem run_exhausts_after_max_retries (beh : Nat → AttemptSpec)
    (hfail : ∀ i, (beh i).outcome = AttemptOutcome.gotoFail) :
    (run beh).1 = none ∧
    countEvent Event.fetchPage (run beh).2 = max_retries := by
  have h := runLoop_allFail_aux beh hfail max_retries 0
  unfold run
  exact ⟨h.1, by simp [countEvent, countEvent_append, h.2]⟩

/-- Witness for C6: the behaviour whose goto raises on every attempt. -/
theorem run_exhausts_after_max_retries_witness :
    (run wBehGotoFail).1 = none ∧
    countEvent Event.fetchPage (run wBehGotoFail).2 = max_retries :=
  run_exhausts_after_max_retries wBehGotoFail (fun _ => rfl)

/-- Claim C8 counterexample: with readiness detection failing on every
attempt all three attempts fail — the first two with attempts remaining —
yet the run trace contains no backoff sleep at all: the `continue` of line
254 re-enters fetching immediately. -/
theorem no_backoff_after_readiness_failure :
    (run wBehLoadFail).2 = [Event.acquireBrowser, Event.fetchPage,
      Event.fetchPage, Event.fetchPage, Event.releaseBrowser] ∧
    countEvent Event.sleepBackoff (run wBehLoadFail).2 = 0 := by decide

/-- Claim C8 (amended): with attempts remaining, a jittered backoff sleep
(`random.uniform(5, 10)`, the `sleepBackoff` event) separates a failed
attempt from the next fetch when the attempt failed in the
navigation/exception path or with a falsy extraction, but a
readiness-detection failure re-enters fetching immediately with no sleep. -/
theorem backoff_between_failures (beh : Nat → AttemptSpec) (rc remaining : Nat) :
    ((beh rc).outcome = AttemptOutcome.gotoFail →
      (runLoop beh rc (remaining + 1)).2 =
        Event.fetchPage :: Event.sleepBackoff :: (runLoop beh (rc + 1) remaining).2) ∧
    (∀ r, (beh rc).outcome = AttemptOutcome.extractDone r → dataTruthy r = false →
      (runLoop beh rc (remaining + 1)).2 =
        Event.fetchPage :: Event.sleepBackoff :: (runLoop beh (rc + 1) remaining).2) ∧
    ((beh rc).outcome = AttemptOutcome.loadFail →
      (runLoop beh rc (remaining + 1)).2 =
        Event.fetchPage :: (runLoop beh (rc + 1) remaining).2) := by
  refine ⟨?_, ?_, ?_⟩
  · intro h; rw [runLoop_step, h]
  · intro r h ht; rw [runLoop_step, h]; simp [ht]
  · intro h; rw [runLoop_step, h]

/-- Witness for the amended C8: a goto failure at attempt 0 of 3 is followed
by a backoff sleep before the continuation of the loop. -/
theorem backoff_between_failures_witness :
    (runLoop wBehGotoFail 0 3).2 =
      Event.fetchPage :: Event.sleepBackoff :: (runLoop wBehGotoFail 1 2).2 :=
  (backoff_between_failures wBehGotoFail 0 2).1 rfl

theorem runLoop_no_browser_events (beh : Nat → AttemptSpec) :
    ∀ (remaining rc : Nat),
      countEvent Event.acquireBrowser (runLoop beh rc remaining).2 = 0 ∧
      countEvent Event.releaseBrowser (runLoop beh rc remaining).2 = 0 := by
  intro remaining
  induction remaining with
  | zero => intro rc; exact ⟨rfl, rfl⟩
  | succ n ih =>
      intro rc
      rw [runLoop_step]
      cases hout : (beh rc).outcome with
      | gotoFail => simp [countEvent, (ih (rc + 1)).1, (ih (rc + 1)).2]
      | loadFail => simp [countEvent, (ih (rc + 1)).1, (ih (rc + 1)).2]
      | extractDone r =>
          by_cases ht : dataTruthy r
          · by_cases hs : (beh rc).saveOk <;> simp [ht, hs, countEvent]
          · simp [ht, countEvent, (ih (rc + 1)).1, (ih (rc + 1)).2]

theorem run_browser_once (beh : Nat → AttemptSpec) :
    countEvent Event.acquireBrowser (run beh).2 = 1 ∧
    countEvent Event.releaseBrowser (run beh).2 = 1 ∧
    (run beh).2.head? = some Event.acquireBrowser ∧
    (run beh).2.getLast? = some Event.releaseBrowser := by
  unfold run
  refine ⟨?_, ?_, rfl, ?_⟩
  · simp [countEvent, countEvent_append,
      (runLoop_no_browser_events beh max_retries 0).1]
  · simp [countEvent, countEvent_append,
      (runLoop_no_browser_events beh max_retries 0).2]
  · show (Event.acquireBrowser :: ((runLoop beh 0 max_retries).2 ++
      [Event.releaseBrowser])).getLast? = some Event.releaseBrowser
    rw [show Event.acquireBrowser :: ((runLoop beh 0 max_retries).2 ++
        [Event.releaseBrowser]) =
      (Event.acquireBrowser :: (runLoop beh 0 max_retries).2) ++
        [Event.releaseBrowser] from rfl]
    exact List.getLast?_concat _

theorem pacGo_cons (rec : CarRecord) (beh : Nat → AttemptSpec)
    (rest : List (CarRecord × (Nat → AttemptSpec))) (agg : Aggregate) :
    pacGo ((rec, beh) :: rest) agg =
      ((pacGo rest (addToAggregate agg rec (process_car rec beh).1)).1,
        (process_car rec beh).2 ++
          (pacGo rest (addToAggregate agg rec (process_car rec beh).1)).2) := rfl

theorem pacGo_acquire_count (cars : List (CarRecord × (Nat → AttemptSpec))) :
    ∀ agg, countEvent Event.acquireBrowser (pacGo cars agg).2 =
      (cars.filter (fun rb => hasUrl rb.1)).length := by
  induction cars with
  | nil => intro agg; rfl
  | cons rb rest ih =>
      intro agg
      obtain ⟨rec, beh⟩ := rb
      rw [pacGo_cons, countEvent_append, ih]
      by_cases hu : hasUrl rec
      · simp [process_car, hu, (run_browser_once beh).1, List.filter_cons,
          Nat.add_comm]
      · simp [process_car, hu, List.filter_cons, countEvent]

theorem pacGo_release_count (cars : List (CarRecord × (Nat → AttemptSpec))) :
    ∀ agg, countEvent Event.releaseBrowser (pacGo cars agg).2 =
      (cars.filter (fun rb => hasUrl rb.1)).length := by
  induction cars with
  | nil => intro agg; rfl
  | cons rb rest ih =>
      intro agg
      obtain ⟨rec, beh⟩ := rb
      rw [pacGo_cons, countEvent_append, ih]
      by_cases hu : hasUrl rec
      · simp [process_car, hu, (run_browser_once beh).2.1, List.filter_cons,
          Nat.add_comm]
      · simp [process_car, hu, List.filter_cons, countEvent]

/-- Claim C9 (amended): the browser handle is not a batch-level resource in
this code: `process_car` creates a fresh spider per unit, and
`CarSpider.run` acquires the browser at unit start and releases it in its
`finally`; so a batch acquires and releases the handle exactly once per
unit with a usable url, and each unit's trace starts with the acquisition
and ends with the release. -/
theorem browser_scoped_per_unit :
    (∀ cars : List (CarRecord × (Nat → AttemptSpec)),
      countEvent Event.acquireBrowser (process_all_cars cars).2 =
        (cars.filter (fun rb => hasUrl rb.1)).length ∧
      countEvent Event.releaseBrowser (process_all_cars cars).2 =
        (cars.filter (fun rb => hasUrl rb.1)).length) ∧
    (∀ beh, (run beh).2.head? = some Event.acquireBrowser ∧
      (run beh).2.getLast? = some Event.releaseBrowser) := by
  constructor
  · intro cars; exact ⟨pacGo_acquire_count cars [], pacGo_release_count cars []⟩
  · intro beh; exact ⟨(run_browser_once beh).2.2.1, (run_browser_once beh).2.2.2⟩

/-- Claim C9 counterexample: a batch of two units with usable urls acquires
the browser twice, not exactly once at batch start. -/
theorem browser_acquired_per_unit_counterexample :
    countEvent Event.acquireBrowser
      (process_all_cars [(wRecA, wBehOk), (wRecB, wBehOk)]).2 = 2 ∧
    ¬ countEvent Event.acquireBrowser
      (process_all_cars [(wRecA, wBehOk), (wRecB, wBehOk)]).2 = 1 := by decide

/-- Claim C7 counterexample: the only unit's extraction succeeds in memory
(truthy data) but its file write fails; `save_data` returns `None`,
`CarSpider.run` hands that back as the unit result, and the aggregate stays
empty — the in-memory result does not appear under the unit's brand. -/
theorem save_failure_excluded_counterexample :
    dataTruthy (extract_car_info w1Page) = true ∧
    (run wBehSaveFail).1 = none ∧
    (process_all_cars [(wRecA, wBehSaveFail)]).1 = [] := by decide

/-- Claim C7 (amended): a unit whose artifact write fails has the failure
caught and logged (the trace records the logged save failure and the run
still releases the browser and returns normally), and the batch is not
aborted (the remaining units are processed and the aggregate equals
theirs); but the unit's in-memory ExtractionResult does not participate in
aggregation — `save_data` returns `None`, `run` propagates it, and the unit
is absent from the aggregate. -/
theorem save_failure_caught_not_aggregated (rec : CarRecord)
    (beh : Nat → AttemptSpec) (rest : List (CarRecord × (Nat → AttemptSpec)))
    (r : Option CarData)
    (hurl : hasUrl rec = true)
    (hb : (beh 0).outcome = AttemptOutcome.extractDone r)
    (ht : dataTruthy r = true)
    (hs : (beh 0).saveOk = false) :
    process_car rec beh = (none, [Event.acquireBrowser, Event.fetchPage,
      Event.saveFailLogged, Event.releaseBrowser]) ∧
    process_all_cars ((rec, beh) :: rest) =
      ((process_all_cars rest).1,
        [Event.acquireBrowser, Event.fetchPage, Event.saveFailLogged,
          Event.releaseBrowser] ++ (process_all_cars rest).2) := by
  have h3 : max_retries = 2 + 1 := rfl
  have hrun : run beh = (none, [Event.acquireBrowser, Event.fetchPage,
      Event.saveFailLogged, Event.releaseBrowser]) := by
    unfold run
    rw [h3, runLoop_step, hb]
    simp [ht, hs]
  have hpc : process_car rec beh = (none, [Event.acquireBrowser,
      Event.fetchPage, Event.saveFailLogged, Event.releaseBrowser]) := by
    unfold process_car
    rw [hurl, if_pos rfl]
    exact hrun
  refine ⟨hpc, ?_⟩
  unfold process_all_cars
  rw [pacGo_cons, hpc]
  simp [addToAggregate]

/-- Witness for the amended C7: the concrete save-failing unit followed by
an empty remainder. -/
theorem save_failure_caught_not_aggregated_witness :
    process_car wRecA wBehSaveFail = (none, [Event.acquireBrowser,
      Event.fetchPage, Event.saveFailLogged, Event.releaseBrowser]) ∧
    process_all_cars [(wRecA, wBehSaveFail)] =
      ((process_all_cars []).1,
        [Event.acquireBrowser, Event.fetchPage, Event.saveFailLogged,
          Event.releaseBrowser] ++ (process_all_cars []).2) :=
  save_failure_caught_not_aggregated wRecA wBehSaveFail []
    (extract_car_info w1Page) (by decide) rfl (by decide) rfl

/-- Claim C10: a descriptor record without a `url` entry is rejected before
any spider is created: `process_car` returns none with an empty event trace
(no browser acquisition, no fetch, no retries), and the batch outcome with
the unit present is identical to the batch without it — the unit never
reaches the aggregate. -/
theorem missing_url_skipped (rec : CarRecord) (beh : Nat → AttemptSpec)
    (rest : List (CarRecord × (Nat → AttemptSpec)))
    (h : rec.url = none) :
    process_car rec beh = (none, []) ∧
    process_all_cars ((rec, beh) :: rest) = process_all_cars rest := by
  have hu : hasUrl rec = false := by unfold hasUrl; rw [h]
  have hpc : process_car rec beh = (none, []) := by
    unfold process_car; rw [hu]; simp
  refine ⟨hpc, ?_⟩
  unfold process_all_cars
  rw [pacGo_cons, hpc]
  simp [addToAggregate]

/-- Witness for C10: the concrete url-less record. -/
theorem missing_url_skipped_witness :
    process_car wRecNoUrl wBehOk = (none, []) ∧
    process_all_cars [(wRecNoUrl, wBehOk)] = process_all_cars [] :=
  missing_url_skipped wRecNoUrl wBehOk [] rfl

end CarInfo
